import Mathlib

/-!
Verification development for the quick_ssm command-line tool (`main.go`).

The Go source is embedded shallowly:

* `addInstanceDisplayNames`, the sorting step of `getInstances`, and the
  instance-selection logic of `main` are modelled as pure Lean functions on
  lists of `InstanceInfo` records.  Go strings are Lean `String`s; the Go map
  `countByName` becomes an explicit counter function `String → Nat`
  (a missing key reads as `0`, exactly as in Go).
* `fmt.Sprintf("%s (%d)", name, c)` is modelled by decimal rendering
  (`decRepr`) and string append.
* The AWS SDK calls of the diagnostic checks (`checkIAMRole`,
  `checkInternetConnectivity`, `checkSSMTrafficRules`,
  `checkRoleSSMPermissions`) are modelled as explicit inputs: each lookup is
  an `Except String` value (errors are lookup failures), and optional SDK
  pointer fields become `Option` fields.
* The `select` race of `startSSMSession` is modelled by a function from the
  race winner (interrupt signal vs. process exit notification, together with
  the exit status the `done` channel carries) to the observable behaviour of
  the branch taken: which signals are forwarded to the child, whether the
  process-exit notification is consumed before returning, and the returned
  result.
-/

/-! ### String helpers

Go compares strings byte-wise in UTF-8 order, which coincides with
code-point lexicographic order; `charListLt` models `<` on Go strings.
`strContains` models `strings.Contains` (substring test) and
`splitOnChar` models `strings.Split` with a one-character separator.
All are structurally recursive so that concrete instances evaluate
inside the kernel. -/

/-- Lexicographic `<` on character lists: the model of Go string `<`. -/
def charListLt : List Char → List Char → Bool
  | [], [] => false
  | [], _ :: _ => true
  | _ :: _, [] => false
  | a :: as, b :: bs => if a < b then true else if b < a then false else charListLt as bs

/-- Model of Go `strings.Contains s sub`. -/
def strContains (s sub : String) : Bool := decide (sub.data <:+: s.data)

/-- Model of Go `strings.HasPrefix s pre`. -/
def strHasPre (s pre : String) : Bool := pre.data.isPrefixOf s.data

/-- Model of Go `strings.Split` with a single-character separator:
splitting the empty string gives `[""]`, and a trailing separator
produces a trailing empty field, as in Go. -/
def splitOnChar (c : Char) : List Char → List (List Char)
  | [] => [[]]
  | x :: xs =>
    if x = c then [] :: splitOnChar c xs
    else
      match splitOnChar c xs with
      | [] => [[x]]
      | p :: ps => (x :: p) :: ps

/-- Fuel-driven decimal digit rendering (most significant digit first);
structural recursion on the fuel keeps it kernel-computable. -/
def decAux : Nat → Nat → List Char
  | 0, _ => []
  | _ + 1, 0 => []
  | fuel + 1, n + 1 => decAux fuel ((n + 1) / 10) ++ [Nat.digitChar ((n + 1) % 10)]

/-- Decimal rendering of a natural number: the model of Go `fmt.Sprintf("%d", n)`. -/
def decRepr (n : Nat) : String := if n = 0 then "0" else ⟨decAux (n + 1) n⟩

/-! ### Instance records and the naming resolver (`getInstances` /
`addInstanceDisplayNames`, main.go lines 176–229) -/

/-- `InstanceInfo` from main.go: an EC2 instance with its metadata. -/
structure InstanceInfo where
  id : String
  name : String
  displayName : String := ""
  deriving DecidableEq, Repr

/-- The display name `addInstanceDisplayNames` assigns to a record whose
name is `s` and whose running count (after increment) is `c`:
`fmt.Sprintf("%s (%d)", s, c)` when `c > 1`, else `s` verbatim. -/
def dispName (s : String) (c : Nat) : String :=
  if 1 < c then s ++ " (" ++ decRepr c ++ ")" else s

/-- The loop body of `addInstanceDisplayNames`, with the Go map
`countByName` made explicit as the counter `cnt` (absent key = 0). -/
def addNamesAux (cnt : String → Nat) : List InstanceInfo → List InstanceInfo
  | [] => []
  | inst :: rest =>
    { inst with displayName := dispName inst.name (cnt inst.name + 1) } ::
      addNamesAux (fun s => if s = inst.name then cnt inst.name + 1 else cnt s) rest

/-- `addInstanceDisplayNames` from main.go: append " (n)" to duplicate
names, where n is the 1-based occurrence count so far. -/
def addInstanceDisplayNames (instances : List InstanceInfo) : List InstanceInfo :=
  addNamesAux (fun _ => 0) instances

/-- The comparator passed to `sort.Slice` in `getInstances`:
by name, ties broken by id. -/
def instLess (a b : InstanceInfo) : Bool :=
  if a.name == b.name then charListLt a.id.data b.id.data
  else charListLt a.name.data b.name.data

/-- The sort order established by `sort.Slice(instances, instLess)`:
`a` may precede `b` exactly when `b` is not strictly less than `a`. -/
def instLe (a b : InstanceInfo) : Prop := instLess b a = false

instance : DecidableRel instLe := fun a b => by unfold instLe; infer_instance

/-- The sorting step of `getInstances` (main.go lines 204–209).
`sort.Slice` produces some permutation sorted by the comparator; ties
(equal name and id) are records that the rest of the pipeline cannot
distinguish, so a deterministic sort is a faithful model. -/
def sortInstances (instances : List InstanceInfo) : List InstanceInfo :=
  instances.insertionSort instLe

/-- The Naming Resolver: the processing `getInstances` applies to the
fetched records — sort by (name, id), then assign display names. -/
def resolveInstanceNames (instances : List InstanceInfo) : List InstanceInfo :=
  addInstanceDisplayNames (sortInstances instances)

/-- Proviso under which display names are unique: no record's raw name
is another record's raw name followed by a " (n)" suffix with n ≥ 2. -/
def NoSuffixedNameClash (l : List InstanceInfo) : Prop :=
  ∀ x ∈ l, ∀ y ∈ l, ∀ k : Nat, 2 ≤ k → x.name ≠ y.name ++ " (" ++ decRepr k ++ ")"

/-- Order on (name, id) keys that coincides with `instLe`. -/
def keyLe (p q : String × String) : Prop :=
  (if q.1 == p.1 then charListLt q.2.data p.2.data else charListLt q.1.data p.1.data) = false

/-! ### Diagnostic checks (main.go lines 271–603)

Each AWS SDK lookup becomes an explicit `Except String` input: `.error`
is the SDK call failing, `.ok` its successful response.  Optional SDK
pointer fields become `Option` fields. -/

/-- `DiagnosticResult` from main.go. -/
structure DiagnosticResult where
  checkName : String
  status : String
  message : String
  deriving DecidableEq

/-- `extractRoleNameFromProfileArn` from main.go: last `/`-separated
component of the ARN when it has at least two components, else `""`. -/
def extractRoleNameFromProfileArn (arn : String) : String :=
  let parts := splitOnChar '/' arn.data
  if 2 ≤ parts.length then ⟨parts.getLastD []⟩ else ""

/-- An entry of `ListAttachedRolePolicies`: the policy ARN pointer. -/
structure AttachedPolicy where
  policyArn : Option String

/-- The `GetRolePolicy` response: the policy document pointer. -/
structure RolePolicy where
  policyDocument : Option String

/-- The IAM lookups `checkRoleSSMPermissions` performs, keyed as the
source keys them (role name, and role name + policy name). -/
structure IamEnv where
  listAttachedRolePolicies : String → Except String (List AttachedPolicy)
  listRolePolicies : String → Except String (List String)
  getRolePolicy : String → String → Except String RolePolicy

/-- `checkRoleSSMPermissions` from main.go: true if an attached policy
ARN contains "AmazonSSMManagedInstanceCore", else if an inline policy
document contains "ssm:"; a failing `GetRolePolicy` skips that policy
(`continue`), while the two list calls propagate their error. -/
def checkRoleSSMPermissions (env : IamEnv) (roleName : String) : Except String Bool :=
  match env.listAttachedRolePolicies roleName with
  | .error e => .error e
  | .ok policies =>
    if policies.any (fun p =>
        match p.policyArn with
        | some arn => strContains arn "AmazonSSMManagedInstanceCore"
        | none => false) then
      .ok true
    else
      match env.listRolePolicies roleName with
      | .error e => .error e
      | .ok policyNames =>
        if policyNames.any (fun policyName =>
            match env.getRolePolicy roleName policyName with
            | .error _ => false
            | .ok policy =>
              match policy.policyDocument with
              | some doc => strContains doc "ssm:"
              | none => false) then
          .ok true
        else
          .ok false

/-- `checkIAMRole` from main.go.  `iamInstanceProfileArn = none` models
both a nil `IamInstanceProfile` and a nil `Arn` pointer. -/
def checkIAMRole (env : IamEnv) (iamInstanceProfileArn : Option String) : DiagnosticResult :=
  match iamInstanceProfileArn with
  | none =>
    ⟨"IAM Role Attachment", "FAIL", "No IAM instance profile attached to the instance"⟩
  | some arn =>
    let roleName := extractRoleNameFromProfileArn arn
    if roleName = "" then
      ⟨"IAM Role Attachment", "WARN",
        "IAM profile attached but could not extract role name from ARN: " ++ arn⟩
    else
      match checkRoleSSMPermissions env roleName with
      | .error e =>
        ⟨"IAM Role Attachment", "WARN",
          "IAM role '" ++ roleName ++ "' attached but could not verify SSM permissions: " ++ e⟩
      | .ok true =>
        ⟨"IAM Role Attachment", "PASS",
          "IAM role '" ++ roleName ++ "' attached with SSM permissions"⟩
      | .ok false =>
        ⟨"IAM Role Attachment", "FAIL",
          "IAM role '" ++ roleName ++ "' attached but missing required SSM permissions"⟩

/-- A route table association: the subnet id pointer. -/
structure RouteTableAssociation where
  subnetId : Option String

/-- A route: destination CIDR block and gateway id pointers. -/
structure Route where
  destinationCidrBlock : Option String
  gatewayId : Option String

/-- A route table: its associations and routes. -/
structure RouteTable where
  associations : List RouteTableAssociation
  routes : List Route

/-- A subnet as `checkInternetConnectivity` uses it: its VPC id
(dereferenced unconditionally in the source). -/
structure Subnet where
  vpcId : String

/-- The EC2 network lookups `checkInternetConnectivity` performs:
subnets by subnet id, route tables filtered by VPC id. -/
structure NetEnv where
  describeSubnets : String → Except String (List Subnet)
  describeRouteTables : String → Except String (List RouteTable)

/-- The association test of `checkInternetConnectivity`'s route-table
loop: some association names exactly the instance's subnet. -/
def routeTableAssociatedWithSubnet (subnetId : String) (rt : RouteTable) : Bool :=
  rt.associations.any fun assoc => decide (assoc.subnetId = some subnetId)

/-- The route test of `checkInternetConnectivity`: destination is
exactly "0.0.0.0/0" and the gateway id starts with "igw-". -/
def routeIsInternetGateway (route : Route) : Bool :=
  decide (route.destinationCidrBlock = some "0.0.0.0/0") &&
    match route.gatewayId with
    | some g => strHasPre g "igw-"
    | none => false

/-- `checkInternetConnectivity` from main.go.  `subnetId = none` models
a nil `SubnetId` pointer. -/
def checkInternetConnectivity (env : NetEnv) (subnetId : Option String) : DiagnosticResult :=
  match subnetId with
  | none => ⟨"Internet Connectivity", "FAIL", "Instance has no subnet ID"⟩
  | some sid =>
    match env.describeSubnets sid with
    | .error e =>
      ⟨"Internet Connectivity", "WARN", "Could not retrieve subnet details: " ++ e⟩
    | .ok [] => ⟨"Internet Connectivity", "FAIL", "Subnet not found"⟩
    | .ok (subnet :: _) =>
      match env.describeRouteTables subnet.vpcId with
      | .error e =>
        ⟨"Internet Connectivity", "WARN", "Could not check route tables: " ++ e⟩
      | .ok routeTables =>
        let hasInternetRoute := routeTables.any fun rt =>
          routeTableAssociatedWithSubnet sid rt && rt.routes.any routeIsInternetGateway
        if hasInternetRoute then
          ⟨"Internet Connectivity", "PASS", "Subnet has internet gateway route (0.0.0.0/0)"⟩
        else
          ⟨"Internet Connectivity", "FAIL",
            "Subnet lacks internet gateway route (0.0.0.0/0) - instance may not have internet access"⟩

/-- An IP range of a security-group rule: the CIDR pointer. -/
structure IpRange where
  cidrIp : Option String

/-- An egress rule (`IpPermission`): protocol, port range and ranges. -/
structure IpPermission where
  ipProtocol : Option String
  fromPort : Option Int
  toPort : Option Int
  ipRanges : List IpRange

/-- A security group as `checkSSMTrafficRules` uses it. -/
structure SecurityGroup where
  ipPermissionsEgress : List IpPermission

/-- The open-destination test: CIDR is "0.0.0.0/0" or "::/0". -/
def openDestination (r : IpRange) : Bool :=
  match r.cidrIp with
  | some cidr => cidr == "0.0.0.0/0" || cidr == "::/0"
  | none => false

/-- The "all traffic" test of `checkSSMTrafficRules`: protocol "-1"
(all traffic) or "6" (all TCP), with an open destination. -/
def ruleAllTraffic (rule : IpPermission) : Bool :=
  (match rule.ipProtocol with
   | some p => p == "-1" || p == "6"
   | none => false) && rule.ipRanges.any openDestination

/-- The HTTPS test of `checkSSMTrafficRules`: port 443 within the
rule's from/to range, with an open destination. -/
def ruleHTTPS (rule : IpPermission) : Bool :=
  (match rule.fromPort, rule.toPort with
   | some f, some t => decide (f ≤ 443) && decide ((443 : Int) ≤ t)
   | _, _ => false) && rule.ipRanges.any openDestination

/-- Pass condition exactly as claim C2 words it (spec-side definition,
kept for comparison with the code): some egress rule permits "all
traffic" (protocol wildcard "-1") or HTTPS (port 443 within the
from/to range) to an open destination. -/
def specSSMTrafficPermits (rule : IpPermission) : Bool :=
  ((rule.ipProtocol == some "-1") && rule.ipRanges.any openDestination) || ruleHTTPS rule

/-- `checkSSMTrafficRules` from main.go.  `attachedGroups` is the
instance's `SecurityGroups` id list; `describeSecurityGroups` the
lookup result for those ids. -/
def checkSSMTrafficRules (attachedGroups : List String)
    (describeSecurityGroups : Except String (List SecurityGroup)) : DiagnosticResult :=
  if attachedGroups.length = 0 then
    ⟨"SSM Traffic Rules", "FAIL", "Instance has no security groups"⟩
  else
    match describeSecurityGroups with
    | .error e =>
      ⟨"SSM Traffic Rules", "WARN", "Could not retrieve security group details: " ++ e⟩
    | .ok sgs =>
      let hasAllTrafficOutbound := sgs.any fun sg => sg.ipPermissionsEgress.any ruleAllTraffic
      let hasHTTPSOutbound := sgs.any fun sg => sg.ipPermissionsEgress.any ruleHTTPS
      if hasAllTrafficOutbound then
        ⟨"SSM Traffic Rules", "PASS",
          "Security groups allow all traffic outbound (includes SSM requirements)"⟩
      else if hasHTTPSOutbound then
        ⟨"SSM Traffic Rules", "PASS",
          "Security groups allow HTTPS outbound traffic (required for SSM)"⟩
      else
        ⟨"SSM Traffic Rules", "FAIL",
          "Security groups do not allow HTTPS outbound traffic (required for SSM)"⟩

/-- The counting loop of `displayDiagnosticResults` (main.go lines
631–644): (passCount, failCount, warnCount). -/
def summaryStep (acc : Nat × Nat × Nat) (result : DiagnosticResult) : Nat × Nat × Nat :=
  match acc with
  | (passCount, failCount, warnCount) =>
    if result.status == "PASS" then (passCount + 1, failCount, warnCount)
    else if result.status == "FAIL" then (passCount, failCount + 1, warnCount)
    else if result.status == "WARN" then (passCount, failCount, warnCount + 1)
    else (passCount, failCount, warnCount)

def summaryCounts (results : List DiagnosticResult) : Nat × Nat × Nat :=
  results.foldl summaryStep (0, 0, 0)

/-! ### The session controller race (`startSSMSession`, main.go lines
235–269)

After `cmd.Start()` succeeds, the code `select`s between the signal
channel and the `done` channel.  The model takes the race winner and
the exit status carried by `done` as inputs and records the observable
behaviour of the branch taken. -/

/-- Signals the controller could send to the child process. -/
inductive UnixSignal where
  | sigint
  | sigterm
  | sigkill
  deriving DecidableEq

/-- Which event wins the `select` race while the session is running. -/
inductive RaceWinner where
  | interrupt
  | processExit
  deriving DecidableEq

/-- The observable behaviour of one run of the `select` block:
signals forwarded to the child, whether the process-exit message on
`done` was consumed before returning, and the returned result
(`none` = nil error). -/
structure SessionOutcome where
  signalsForwarded : List UnixSignal
  exitObservedBeforeReturn : Bool
  result : Option String
  deriving DecidableEq

/-- The `select` block of `startSSMSession`.  `exitErr` is the value
the `done` channel carries (the subprocess's `Wait` error; `none` =
clean exit).  On interrupt: forward SIGINT, then block on `<-done`,
discarding its value, and return nil.  On process exit: return an
error exactly when the exit was a failure. -/
def startSSMSessionSelect (winner : RaceWinner) (exitErr : Option String) : SessionOutcome :=
  match winner with
  | .interrupt =>
    { signalsForwarded := [.sigint]
      exitObservedBeforeReturn := true
      result := none }
  | .processExit =>
    { signalsForwarded := []
      exitObservedBeforeReturn := true
      result := exitErr.map (fun e => "SSM session ended with error: " ++ e) }

/-! ### Instance selection (main.go lines 132–153) -/

/-- Decimal value of a digit string (the accumulation `strconv.Atoi`
performs). -/
def digitsVal (cs : List Char) : Nat :=
  cs.foldl (fun acc c => acc * 10 + (c.toNat - '0'.toNat)) 0

/-- Model of Go `strconv.Atoi`: optional sign followed by at least one
digit, else an error (`none`).  The value is unbounded here; the
64-bit overflow error of the original cannot occur for inputs that
name a list position. -/
def atoi (s : String) : Option Int :=
  match s.data with
  | [] => none
  | '-' :: rest =>
    if !rest.isEmpty && rest.all Char.isDigit then some (-(digitsVal rest : Int)) else none
  | '+' :: rest =>
    if !rest.isEmpty && rest.all Char.isDigit then some ((digitsVal rest : Int)) else none
  | cs =>
    if cs.all Char.isDigit then some ((digitsVal cs : Int)) else none

/-- Outcome of the selection prompt: a clean exit with a message, or
an attempted list access. -/
inductive SelectionOutcome where
  | exitClean (msg : String)
  | selected (inst : Option InstanceInfo)
  deriving DecidableEq

/-- Total model of Go `instances[i]` for `i : Int`: in-bounds access
yields the record; any access that panics in Go yields `none`. -/
def listIdx (l : List InstanceInfo) (i : Int) : Option InstanceInfo :=
  if i < 0 then none else l.get? i.toNat

/-- The selection logic of `main` (lines 139–148), applied to the
input line with its trailing newline already stripped: blank input
exits, non-numeric input exits, and otherwise the list is indexed at
`n - 1` with no range check. -/
def selectInstance (instances : List InstanceInfo) (input : String) : SelectionOutcome :=
  if input = "" then .exitClean "Exiting"
  else
    match atoi input with
    | none => .exitClean "Non-numeric input. Exiting"
    | some n => .selected (listIdx instances (n - 1))

/-! ### Order lemmas for `charListLt` -/

theorem charListLt_irrefl (a : List Char) : charListLt a a = false := by
  induction a with
  | nil => rfl
  | cons x xs ih => simp [charListLt, lt_irrefl, ih]

theorem charListLt_asymm : ∀ a b : List Char,
    charListLt a b = true → charListLt b a = false := by
  intro a
  induction a with
  | nil => intro b h; cases b with
    | nil => simp [charListLt] at h
    | cons y ys => rfl
  | cons x xs ih =>
    intro b h
    cases b with
    | nil => simp [charListLt] at h
    | cons y ys =>
      by_cases hxy : x < y
      · have hyx : ¬ y < x := lt_asymm hxy
        simp [charListLt, hxy, hyx] at h ⊢
      · by_cases hyx : y < x
        · simp [charListLt, hxy, hyx] at h
        · simp [charListLt, hxy, hyx] at h ⊢
          exact ih ys h

theorem charListLt_eq_of_not_lt : ∀ a b : List Char,
    charListLt a b = false → charListLt b a = false → a = b := by
  intro a
  induction a with
  | nil => intro b h _; cases b with
    | nil => rfl
    | cons y ys => simp [charListLt] at h
  | cons x xs ih =>
    intro b h h'
    cases b with
    | nil => simp [charListLt] at h'
    | cons y ys =>
      by_cases hxy : x < y
      · simp [charListLt, hxy] at h
      · by_cases hyx : y < x
        · simp [charListLt, hxy, hyx] at h'
        · have hx : x = y := le_antisymm (not_lt.1 hyx) (not_lt.1 hxy)
          simp [charListLt, hxy, hyx] at h h'
          exact congrArg₂ (· :: ·) hx (ih ys h h')

theorem charListLt_trans : ∀ a b c : List Char,
    charListLt a b = true → charListLt b c = true → charListLt a c = true := by
  intro a
  induction a with
  | nil =>
    intro b c h h'
    cases b with
    | nil => simp [charListLt] at h
    | cons y ys =>
      cases c with
      | nil => simp [charListLt] at h'
      | cons z zs => rfl
  | cons x xs ih =>
    intro b c h h'
    cases b with
    | nil => simp [charListLt] at h
    | cons y ys =>
      cases c with
      | nil => simp [charListLt] at h'
      | cons z zs =>
        by_cases hxy : x < y
        · by_cases hyz : y < z
          · simp [charListLt, lt_trans hxy hyz]
          · by_cases hzy : z < y
            · simp [charListLt, hyz, hzy] at h'
            · have : y = z := le_antisymm (not_lt.1 hzy) (not_lt.1 hyz)
              subst this
              simp [charListLt, hxy]
        · by_cases hyx : y < x
          · simp [charListLt, hxy, hyx] at h
          · have hx : x = y := le_antisymm (not_lt.1 hyx) (not_lt.1 hxy)
            subst hx
            by_cases hyz : x < z
            · simp [charListLt, hyz]
            · by_cases hzy : z < x
              · simp [charListLt, hyz, hzy] at h'
              · have : x = z := le_antisymm (not_lt.1 hzy) (not_lt.1 hyz)
                subst this
                simp [charListLt, lt_irrefl] at h h' ⊢
                exact ih _ _ h h'

theorem charListLt_false_trans {a b c : List Char}
    (h : charListLt b a = false) (h' : charListLt c b = false) :
    charListLt c a = false := by
  by_contra hca
  have hca : charListLt c a = true := by
    cases hv : charListLt c a with
    | false => exact absurd hv hca
    | true => rfl
  by_cases hab : charListLt a b = true
  · by_cases hbc : charListLt b c = true
    · exact absurd (charListLt_asymm _ _ (charListLt_trans _ _ _ hab hbc)) (by simp [hca])
    · have : b = c := charListLt_eq_of_not_lt _ _ (by simpa using hbc) h'
      subst this
      exact absurd (charListLt_asymm _ _ hab) (by simp [hca])
  · have : a = b := charListLt_eq_of_not_lt _ _ (by simpa using hab) h
    subst this
    exact absurd hca (by simp [h'])

theorem instLe_total : ∀ a b : InstanceInfo, instLe a b ∨ instLe b a := by
  intro a b
  unfold instLe instLess
  by_cases hn : a.name = b.name
  · simp only [hn, beq_self_eq_true, if_pos]
    by_cases h : charListLt b.id.data a.id.data = true
    · exact Or.inr (charListLt_asymm _ _ h)
    · exact Or.inl (by simpa using h)
  · have h1 : (b.name == a.name) = false := by simp [beq_iff_eq]; exact fun h => hn h.symm
    have h2 : (a.name == b.name) = false := by simp [beq_iff_eq, hn]
    simp only [h1, h2, if_neg, Bool.false_eq_true]
    by_cases h : charListLt b.name.data a.name.data = true
    · exact Or.inr (charListLt_asymm _ _ h)
    · exact Or.inl (by simpa using h)

theorem instLe_trans : ∀ a b c : InstanceInfo, instLe a b → instLe b c → instLe a c := by
  intro a b c hab hbc
  unfold instLe instLess at *
  by_cases h1 : a.name = b.name <;> by_cases h2 : b.name = c.name
  · -- all three names equal
    have h2' : c.name = b.name := h2.symm
    simp only [h1, h2', beq_self_eq_true, if_true] at hab hbc ⊢
    exact charListLt_false_trans hab hbc
  · -- a.name = b.name, b.name ≠ c.name
    have hca : (c.name == a.name) = false := by
      simp [beq_iff_eq, h1]; exact fun h => h2 h.symm
    have hcb : (c.name == b.name) = false := by
      simp [beq_iff_eq]; exact fun h => h2 h.symm
    simp only [hca, hcb, if_neg, Bool.false_eq_true] at hbc ⊢
    rw [h1]
    exact hbc
  · -- a.name ≠ b.name, b.name = c.name
    have hba : (b.name == a.name) = false := by
      simp [beq_iff_eq]; exact fun h => h1 h.symm
    have hca : (c.name == a.name) = false := by
      simp [beq_iff_eq, ← h2]; exact fun h => h1 h.symm
    simp only [hba, hca, if_neg, Bool.false_eq_true] at hab ⊢
    rw [← h2]
    exact hab
  · -- a.name ≠ b.name, b.name ≠ c.name
    have hba : (b.name == a.name) = false := by
      simp [beq_iff_eq]; exact fun h => h1 h.symm
    have hcb : (c.name == b.name) = false := by
      simp [beq_iff_eq]; exact fun h => h2 h.symm
    simp only [hba, hcb, if_neg, Bool.false_eq_true] at hab hbc
    by_cases hca : c.name = a.name
    · exfalso
      rw [hca] at hbc
      exact h1 (String.ext (charListLt_eq_of_not_lt _ _ hbc hab))
    · have hca' : (c.name == a.name) = false := by simp [beq_iff_eq, hca]
      simp only [hca', if_neg, Bool.false_eq_true]
      exact charListLt_false_trans hab hbc

/-! ### Decimal rendering lemmas -/

theorem decAux_eq_digits : ∀ (n fuel : Nat), n < fuel →
    decAux fuel n = ((Nat.digits 10 n).map Nat.digitChar).reverse := by
  intro n
  induction n using Nat.strong_induction_on with
  | _ n ih =>
    intro fuel hfuel
    cases fuel with
    | zero => omega
    | succ f =>
      cases n with
      | zero => simp [decAux]
      | succ m =>
        rw [decAux]
        have hdiv : (m + 1) / 10 < m + 1 := Nat.div_lt_self (Nat.succ_pos m) (by norm_num)
        rw [ih ((m + 1) / 10) hdiv f (by omega)]
        rw [Nat.digits_def' (by norm_num : (1:ℕ) < 10) (Nat.succ_pos m)]
        simp

theorem decRepr_data (n : Nat) (hn : n ≠ 0) :
    (decRepr n).data = ((Nat.digits 10 n).map Nat.digitChar).reverse := by
  simp only [decRepr, if_neg hn]
  exact decAux_eq_digits n (n + 1) (Nat.lt_succ_self n)

theorem digitChar_isDigit : ∀ d : Nat, d < 10 → (Nat.digitChar d).isDigit = true := by decide

theorem digitChar_inj_lt :
    ∀ a : Nat, a < 10 → ∀ b : Nat, b < 10 → Nat.digitChar a = Nat.digitChar b → a = b := by
  decide

theorem decRepr_chars_isDigit (n : Nat) (c : Char) (hc : c ∈ (decRepr n).data) :
    c.isDigit = true := by
  by_cases hn : n = 0
  · subst hn
    have : c ∈ ['0'] := hc
    simp at this
    subst this
    decide
  · rw [decRepr_data n hn] at hc
    simp only [List.mem_reverse, List.mem_map] at hc
    obtain ⟨d, hd, rfl⟩ := hc
    exact digitChar_isDigit d (Nat.digits_lt_base (by norm_num) hd)

theorem map_digitChar_inj : ∀ xs ys : List Nat, (∀ x ∈ xs, x < 10) → (∀ y ∈ ys, y < 10) →
    xs.map Nat.digitChar = ys.map Nat.digitChar → xs = ys := by
  intro xs
  induction xs with
  | nil =>
    intro ys _ _ h
    cases ys with
    | nil => rfl
    | cons y ys' => simp at h
  | cons x xs' ih =>
    intro ys hx hy h
    cases ys with
    | nil => simp at h
    | cons y ys' =>
      simp only [List.map_cons, List.cons.injEq] at h
      have hxy : x = y :=
        digitChar_inj_lt x (hx x (by simp)) y (hy y (by simp)) h.1
      have := ih ys' (fun a ha => hx a (by simp [ha])) (fun a ha => hy a (by simp [ha])) h.2
      rw [hxy, this]

theorem decRepr_inj (m n : Nat) (h : decRepr m = decRepr n) : m = n := by
  have hd := congrArg String.data h
  by_cases hm : m = 0 <;> by_cases hn : n = 0
  · rw [hm, hn]
  · exfalso
    rw [hm] at hd
    rw [decRepr_data n hn] at hd
    have h0 : (decRepr 0).data = ['0'] := rfl
    rw [h0] at hd
    have hrev := congrArg List.reverse hd
    simp only [List.reverse_reverse] at hrev
    have : (Nat.digits 10 n).map Nat.digitChar = ['0'] := by
      rw [← hrev]; rfl
    have hdig : Nat.digits 10 n = [0] := by
      have := map_digitChar_inj (Nat.digits 10 n) [0]
        (fun x hx => Nat.digits_lt_base (by norm_num) hx)
        (by intro y hy; simp at hy; omega)
        (by rw [this]; rfl)
      exact this
    have := Nat.ofDigits_digits 10 n
    rw [hdig] at this
    simp [Nat.ofDigits] at this
    exact hn this.symm
  · exfalso
    rw [hn] at hd
    rw [decRepr_data m hm] at hd
    have h0 : (decRepr 0).data = ['0'] := rfl
    rw [h0] at hd
    have hrev := congrArg List.reverse hd
    simp only [List.reverse_reverse] at hrev
    have : (Nat.digits 10 m).map Nat.digitChar = ['0'] := by
      rw [hrev]; rfl
    have hdig : Nat.digits 10 m = [0] := by
      have := map_digitChar_inj (Nat.digits 10 m) [0]
        (fun x hx => Nat.digits_lt_base (by norm_num) hx)
        (by intro y hy; simp at hy; omega)
        (by rw [this]; rfl)
      exact this
    have := Nat.ofDigits_digits 10 m
    rw [hdig] at this
    simp [Nat.ofDigits] at this
    exact hm this.symm
  · rw [decRepr_data m hm, decRepr_data n hn] at hd
    have hmap : (Nat.digits 10 m).map Nat.digitChar = (Nat.digits 10 n).map Nat.digitChar := by
      have := congrArg List.reverse hd
      simpa using this
    have hdig : Nat.digits 10 m = Nat.digits 10 n :=
      map_digitChar_inj _ _
        (fun x hx => Nat.digits_lt_base (by norm_num) hx)
        (fun y hy => Nat.digits_lt_base (by norm_num) hy) hmap
    have h1 := Nat.ofDigits_digits 10 m
    have h2 := Nat.ofDigits_digits 10 n
    rw [hdig] at h1
    rw [h2] at h1
    exact h1.symm

theorem decRepr_ne_nil (n : Nat) (hn : n ≠ 0) : (decRepr n).data ≠ [] := by
  rw [decRepr_data n hn]
  simp only [ne_eq, List.reverse_eq_nil_iff, List.map_eq_nil_iff]
  exact Nat.digits_ne_nil_iff_ne_zero.2 hn

/-! ### Cancellation of the " (n)" display-name suffix -/

theorem digitRun_cancel : ∀ (xs ys t1 t2 : List Char),
    (∀ x ∈ xs, x.isDigit = true) → (∀ y ∈ ys, y.isDigit = true) →
    xs ++ '(' :: t1 = ys ++ '(' :: t2 → xs = ys ∧ t1 = t2 := by
  intro xs
  induction xs with
  | nil =>
    intro ys t1 t2 _ hy h
    cases ys with
    | nil => simpa using h
    | cons y ys' =>
      exfalso
      simp only [List.nil_append, List.cons_append, List.cons.injEq] at h
      have := hy y (by simp)
      rw [← h.1] at this
      simp at this
  | cons x xs' ih =>
    intro ys t1 t2 hx hy h
    cases ys with
    | nil =>
      exfalso
      simp only [List.nil_append, List.cons_append, List.cons.injEq] at h
      have := hx x (by simp)
      rw [h.1] at this
      simp at this
    | cons y ys' =>
      simp only [List.cons_append, List.cons.injEq] at h
      obtain ⟨hxy, hrest⟩ := h
      have := ih ys' t1 t2 (fun a ha => hx a (by simp [ha])) (fun a ha => hy a (by simp [ha])) hrest
      exact ⟨by rw [hxy, this.1], this.2⟩

theorem mid_digit_cancel (p q A B : List Char)
    (hA : ∀ x ∈ A, x.isDigit = true) (hB : ∀ x ∈ B, x.isDigit = true)
    (h : p ++ [' ', '('] ++ A ++ [')'] = q ++ [' ', '('] ++ B ++ [')']) :
    p = q ∧ A = B := by
  have hr := congrArg List.reverse h
  simp only [List.reverse_append, List.reverse_cons, List.reverse_nil, List.nil_append,
    List.append_assoc, List.cons_append, List.singleton_append, List.cons.injEq] at hr
  -- hr should now relate A.reverse ++ '(' :: ' ' :: p.reverse with the B side
  obtain ⟨-, hr⟩ := hr
  have hAr : ∀ x ∈ A.reverse, x.isDigit = true := fun x hx => hA x (List.mem_reverse.1 hx)
  have hBr : ∀ x ∈ B.reverse, x.isDigit = true := fun x hx => hB x (List.mem_reverse.1 hx)
  have hcanc := digitRun_cancel A.reverse B.reverse (' ' :: p.reverse) (' ' :: q.reverse)
    hAr hBr (by simpa using hr)
  obtain ⟨hAB, htail⟩ := hcanc
  simp only [List.cons.injEq] at htail
  constructor
  · have := congrArg List.reverse htail.2
    simpa using this
  · have := congrArg List.reverse hAB
    simpa using this

theorem suffix_cancel (s1 s2 : String) (a b : Nat)
    (h : s1 ++ " (" ++ decRepr a ++ ")" = s2 ++ " (" ++ decRepr b ++ ")") :
    s1 = s2 ∧ a = b := by
  have hd := congrArg String.data h
  simp only [String.data_append] at hd
  have hmid := mid_digit_cancel s1.data s2.data (decRepr a).data (decRepr b).data
    (fun x hx => decRepr_chars_isDigit a x hx)
    (fun x hx => decRepr_chars_isDigit b x hx)
    (by simpa [List.append_assoc] using hd)
  exact ⟨String.ext hmid.1, decRepr_inj a b (String.ext hmid.2)⟩

/-! ### Display-name uniqueness machinery -/

theorem self_ne_suffixed (s1 s2 : String) (k : Nat) (hl : s1.length ≤ s2.length) :
    s1 ≠ s2 ++ " (" ++ decRepr k ++ ")" := by
  intro h
  have hlen := congrArg String.length h
  rw [String.length_append, String.length_append, String.length_append] at hlen
  have h2 : (" (" : String).length = 2 := rfl
  have h3 : (")" : String).length = 1 := rfl
  rw [h2, h3] at hlen
  omega

theorem dispName_ne (s1 s2 : String) (c1 c2 : Nat) (hc1 : 1 ≤ c1) (hc2 : 1 ≤ c2)
    (h12 : ∀ k, 2 ≤ k → s1 ≠ s2 ++ " (" ++ decRepr k ++ ")")
    (h21 : ∀ k, 2 ≤ k → s2 ≠ s1 ++ " (" ++ decRepr k ++ ")")
    (hne : s1 ≠ s2 ∨ c1 ≠ c2) : dispName s1 c1 ≠ dispName s2 c2 := by
  intro h
  unfold dispName at h
  by_cases h1 : 1 < c1 <;> by_cases h2 : 1 < c2
  · rw [if_pos h1, if_pos h2] at h
    obtain ⟨hs, hc⟩ := suffix_cancel _ _ _ _ h
    cases hne with
    | inl hn => exact hn hs
    | inr hn => exact hn hc
  · rw [if_pos h1, if_neg h2] at h
    exact h21 c1 (by omega) h.symm
  · rw [if_neg h1, if_pos h2] at h
    exact h12 c2 (by omega) h
  · rw [if_neg h1, if_neg h2] at h
    cases hne with
    | inl hn => exact hn h
    | inr hn => exact hn (by omega)

theorem addNamesAux_mem : ∀ (cnt : String → Nat) (l : List InstanceInfo) (x : InstanceInfo),
    x ∈ addNamesAux cnt l →
    (∃ y ∈ l, y.name = x.name) ∧
      ∃ c, 1 ≤ c ∧ cnt x.name < c ∧ x.displayName = dispName x.name c := by
  intro cnt l
  induction l generalizing cnt with
  | nil => intro x hx; simp [addNamesAux] at hx
  | cons inst rest ih =>
    intro x hx
    simp only [addNamesAux, List.mem_cons] at hx
    cases hx with
    | inl hx =>
      subst hx
      exact ⟨⟨inst, by simp, rfl⟩, cnt inst.name + 1, by omega, Nat.lt_succ_self _, rfl⟩
    | inr hx =>
      obtain ⟨⟨y, hy, hyn⟩, c, hc1, hlt, hdisp⟩ :=
        ih (fun s => if s = inst.name then cnt inst.name + 1 else cnt s) x hx
      refine ⟨⟨y, by simp [hy], hyn⟩, c, hc1, ?_, hdisp⟩
      by_cases hxn : x.name = inst.name
      · simp only [hxn, if_pos] at hlt
        rw [hxn]
        omega
      · simpa [hxn] using hlt

theorem addNamesAux_pairwise_ne (N : List InstanceInfo) (hN : NoSuffixedNameClash N) :
    ∀ (cnt : String → Nat) (l : List InstanceInfo),
    (∀ x ∈ l, ∃ y ∈ N, y.name = x.name) →
    (addNamesAux cnt l).Pairwise (fun a b => a.displayName ≠ b.displayName) := by
  intro cnt l
  induction l generalizing cnt with
  | nil => intro _; simp [addNamesAux]
  | cons inst rest ih =>
    intro hmem
    simp only [addNamesAux]
    refine List.Pairwise.cons ?_ (ih _ (fun x hx => hmem x (by simp [hx])))
    intro b hb
    obtain ⟨⟨y, hy, hyn⟩, c, hc1, hlt, hdisp⟩ := addNamesAux_mem _ _ b hb
    obtain ⟨zi, hziN, hzin⟩ := hmem inst (by simp)
    obtain ⟨zb, hzbN, hzbn⟩ := hmem y (by simp [hy])
    rw [hyn] at hzbn
    show dispName inst.name (cnt inst.name + 1) ≠ b.displayName
    rw [hdisp]
    apply dispName_ne inst.name b.name (cnt inst.name + 1) c (by omega) hc1
    · intro k hk
      by_cases heq : inst.name = b.name
      · rw [heq]
        exact self_ne_suffixed _ _ k le_rfl
      · rw [← hzin, ← hzbn]
        exact hN zi hziN zb hzbN k hk
    · intro k hk
      by_cases heq : inst.name = b.name
      · rw [heq]
        exact self_ne_suffixed _ _ k le_rfl
      · rw [← hzin, ← hzbn]
        exact hN zb hzbN zi hziN k hk
    · by_cases heq : inst.name = b.name
      · right
        simp only [heq.symm, if_pos] at hlt
        omega
      · exact Or.inl heq

/-! ### Frame and group-structure lemmas for the naming resolver -/

theorem addNamesAux_map_id : ∀ (cnt : String → Nat) (l : List InstanceInfo),
    (addNamesAux cnt l).map (fun x => x.id) = l.map (fun x => x.id) := by
  intro cnt l
  induction l generalizing cnt with
  | nil => rfl
  | cons inst rest ih => simp [addNamesAux, ih]

theorem addNamesAux_map_name : ∀ (cnt : String → Nat) (l : List InstanceInfo),
    (addNamesAux cnt l).map (fun x => x.name) = l.map (fun x => x.name) := by
  intro cnt l
  induction l generalizing cnt with
  | nil => rfl
  | cons inst rest ih => simp [addNamesAux, ih]

theorem addNamesAux_map_key : ∀ (cnt : String → Nat) (l : List InstanceInfo),
    (addNamesAux cnt l).map (fun x => (x.name, x.id)) = l.map (fun x => (x.name, x.id)) := by
  intro cnt l
  induction l generalizing cnt with
  | nil => rfl
  | cons inst rest ih => simp [addNamesAux, ih]

theorem addNamesAux_length (cnt : String → Nat) (l : List InstanceInfo) :
    (addNamesAux cnt l).length = l.length := by
  have := addNamesAux_map_id cnt l
  have h1 := congrArg List.length this
  simpa using h1

theorem addNamesAux_filter_map (s : String) :
    ∀ (cnt : String → Nat) (l : List InstanceInfo),
    (((addNamesAux cnt l).filter (fun x => x.name == s)).map (fun x => x.displayName)) =
      (List.range (l.countP (fun x => x.name == s))).map
        (fun j => dispName s (cnt s + j + 1)) := by
  intro cnt l
  induction l generalizing cnt with
  | nil => rfl
  | cons inst rest ih =>
    by_cases hns : inst.name = s
    · have hs' : s = inst.name := hns.symm
      have hcnt : (if s = inst.name then cnt inst.name + 1 else cnt s) = cnt s + 1 := by
        rw [if_pos hs', hs']
      simp only [addNamesAux, List.filter_cons, List.countP_cons, hns, beq_self_eq_true,
        if_true, List.map_cons]
      rw [ih]
      simp only [eq_self_iff_true, if_true]
      rw [List.range_succ_eq_map]
      simp only [List.map_cons, List.map_map, Function.comp, Nat.add_zero]
      refine congrArg₂ List.cons rfl ?_
      exact List.map_congr_left (fun j _ => by congr 1; omega)
    · have hbeq : (inst.name == s) = false := by simp [hns]
      have hcnt : (if s = inst.name then cnt inst.name + 1 else cnt s) = cnt s := by
        rw [if_neg (fun h => hns h.symm)]
      simp only [addNamesAux, List.filter_cons, List.countP_cons, hbeq, if_false,
        Bool.false_eq_true]
      rw [ih]
      rw [hcnt]
      simp

theorem sortInstances_pairwise (l : List InstanceInfo) :
    (sortInstances l).Pairwise instLe := by
  haveI : IsTotal InstanceInfo instLe := ⟨instLe_total⟩
  haveI : IsTrans InstanceInfo instLe := ⟨instLe_trans⟩
  exact List.sorted_insertionSort instLe l

theorem resolveInstanceNames_pairwise_le (l : List InstanceInfo) :
    (resolveInstanceNames l).Pairwise instLe := by
  have hs : (sortInstances l).Pairwise instLe := sortInstances_pairwise l
  have hkey : ((sortInstances l).map (fun x => (x.name, x.id))).Pairwise keyLe :=
    (List.pairwise_map).2 (hs.imp (fun h => h))
  rw [← addNamesAux_map_key (fun _ => 0) (sortInstances l)] at hkey
  exact ((List.pairwise_map).1 hkey).imp (fun h => h)

theorem resolveInstanceNames_group_ids (l : List InstanceInfo) (s : String) :
    ((resolveInstanceNames l).filter (fun x => x.name == s)).Pairwise
      (fun a b => charListLt b.id.data a.id.data = false) := by
  have h := (resolveInstanceNames_pairwise_le l).filter (fun x => x.name == s)
  refine List.Pairwise.imp_of_mem ?_ h
  intro a b ha hb hab
  have ha' : a.name = s := by simpa using List.of_mem_filter ha
  have hb' : b.name = s := by simpa using List.of_mem_filter hb
  unfold instLe instLess at hab
  have hcond : (b.name == a.name) = true := by simp [ha', hb']
  simpa only [hcond, if_true] using hab

/-! ### Claim theorems for the naming resolver -/

/-- C1, counterexample to the claim as stated: with raw names
"a", "a" and "a (2)", the resolver assigns the display name "a (2)"
to two records with distinct ids, so display names are not pairwise
unique when a raw name already carries a " (n)" suffix. -/
theorem displayNames_unique_counterexample :
    ∃ a ∈ resolveInstanceNames
        [⟨"i-3", "a (2)", ""⟩, ⟨"i-1", "a", ""⟩, ⟨"i-2", "a", ""⟩],
      ∃ b ∈ resolveInstanceNames
        [⟨"i-3", "a (2)", ""⟩, ⟨"i-1", "a", ""⟩, ⟨"i-2", "a", ""⟩],
        a.id ≠ b.id ∧ a.displayName = b.displayName := by decide

/-- C1 (amended): for every instance list in which no raw name is
another raw name followed by a " (n)" suffix (n ≥ 2), the Naming
Resolver (sort + addInstanceDisplayNames, as in getInstances) produces
pairwise-distinct display names — in particular no two records with
distinct ids share a display name. -/
theorem displayNames_pairwise_unique (l : List InstanceInfo) (h : NoSuffixedNameClash l) :
    (resolveInstanceNames l).Pairwise (fun a b => a.displayName ≠ b.displayName) := by
  unfold resolveInstanceNames addInstanceDisplayNames
  apply addNamesAux_pairwise_ne l h
  intro x hx
  exact ⟨x, (List.perm_insertionSort instLe l).mem_iff.1 hx, rfl⟩

/-- Witness for C1: the proviso holds for raw names "a", "a", "b", and
the resolver output has pairwise-distinct display names. -/
theorem displayNames_pairwise_unique_witness :
    (resolveInstanceNames [⟨"i-2", "b", ""⟩, ⟨"i-1", "a", ""⟩, ⟨"i-3", "a", ""⟩]).Pairwise
      (fun a b => a.displayName ≠ b.displayName) := by
  apply displayNames_pairwise_unique
  intro x hx y hy k hk
  apply self_ne_suffixed
  fin_cases hx <;> fin_cases hy <;> decide

/-- C10: addInstanceDisplayNames only rewrites the DisplayName field:
the list length, the order, and every record's ID and Name are
unchanged. -/
theorem addInstanceDisplayNames_frame (l : List InstanceInfo) :
    (addInstanceDisplayNames l).length = l.length ∧
    (addInstanceDisplayNames l).map (fun x => x.id) = l.map (fun x => x.id) ∧
    (addInstanceDisplayNames l).map (fun x => x.name) = l.map (fun x => x.name) :=
  ⟨addNamesAux_length _ l, addNamesAux_map_id _ l, addNamesAux_map_name _ l⟩

/-- C7: in the resolver output, the records carrying raw name s are,
in order, displayed as s, "s (2)", …, "s (k)" where k is the number of
records with raw name s; their ids are ascending (the sort's
tie-break); and the resolver is deterministic. -/
theorem collision_group_suffixes (l : List InstanceInfo) (s : String) :
    (((resolveInstanceNames l).filter (fun x => x.name == s)).map (fun x => x.displayName)) =
      (List.range (l.countP (fun x => x.name == s))).map (fun j => dispName s (j + 1)) ∧
    ((resolveInstanceNames l).filter (fun x => x.name == s)).Pairwise
      (fun a b => charListLt b.id.data a.id.data = false) ∧
    resolveInstanceNames l = resolveInstanceNames l := by
  refine ⟨?_, resolveInstanceNames_group_ids l s, rfl⟩
  unfold resolveInstanceNames addInstanceDisplayNames
  rw [addNamesAux_filter_map s (fun _ => 0) (sortInstances l)]
  have hcount : (sortInstances l).countP (fun x => x.name == s) =
      l.countP (fun x => x.name == s) :=
    List.Perm.countP_eq _ (List.perm_insertionSort instLe l)
  rw [hcount]
  exact List.map_congr_left (fun j _ => by congr 1; omega)

/-! ### Claim theorems for the session controller and selection -/

/-- C3: when the interrupt signal wins the race, the controller
forwards SIGINT (a graceful termination, not a kill) to the child and
still consumes the process-exit notification before returning; in
every run of the select block the result is produced only after the
exit notification has been received, so the subprocess is reaped. -/
theorem session_interrupt_graceful_and_reaped :
    (∀ exitErr, (startSSMSessionSelect .interrupt exitErr).signalsForwarded =
        [UnixSignal.sigint] ∧
      UnixSignal.sigkill ∉ (startSSMSessionSelect .interrupt exitErr).signalsForwarded) ∧
    ∀ winner exitErr, (startSSMSessionSelect winner exitErr).exitObservedBeforeReturn = true := by
  refine ⟨fun e => ⟨rfl, show UnixSignal.sigkill ∉ [UnixSignal.sigint] by decide⟩,
    fun w e => ?_⟩
  cases w <;> rfl

/-- C4, counterexample to the claim as stated: when the interrupt wins
the race and the subprocess then exits with a failure status, the
select block discards that status and returns a nil result, not an
error. -/
theorem session_failure_after_interrupt_counterexample :
    (startSSMSessionSelect .interrupt (some "exit status 1")).result = none := rfl

/-- C4 (amended): a failing subprocess exit is reported as an error
exactly when the process-exit notification wins the race; when the
interrupt wins, the exit status read from the done channel is
discarded and a nil result is returned regardless of failure. -/
theorem session_failure_error_reporting :
    (∀ e : String, (startSSMSessionSelect .processExit (some e)).result =
        some ("SSM session ended with error: " ++ e)) ∧
    (startSSMSessionSelect .processExit none).result = none ∧
    ∀ exitErr, (startSSMSessionSelect .interrupt exitErr).result = none :=
  ⟨fun _ => rfl, rfl, fun _ => rfl⟩

/-- C9: at the selection prompt, blank input exits cleanly, any input
`strconv.Atoi` rejects exits cleanly, and a numeric input n outside
1..length is not range-checked: the code indexes the list at n-1,
which in the total model yields `none` (the panic branch in Go). -/
theorem selectInstance_behaviour (instances : List InstanceInfo) :
    selectInstance instances "" = .exitClean "Exiting" ∧
    (∀ input, atoi input = none → input ≠ "" →
      selectInstance instances input = .exitClean "Non-numeric input. Exiting") ∧
    (∀ input n, atoi input = some n → (n < 1 ∨ (instances.length : Int) < n) →
      selectInstance instances input = .selected none) := by
  refine ⟨rfl, ?_, ?_⟩
  · intro input hnone hne
    unfold selectInstance
    rw [if_neg hne, hnone]
  · intro input n hsome hrange
    have hne : input ≠ "" := by
      intro h
      rw [h] at hsome
      have hempty : (atoi "" : Option Int) = none := rfl
      rw [hempty] at hsome
      exact Option.noConfusion hsome
    have hred : selectInstance instances input = .selected (listIdx instances (n - 1)) := by
      unfold selectInstance
      rw [if_neg hne, hsome]
    rw [hred]
    unfold listIdx
    by_cases hneg : n - 1 < 0
    · rw [if_pos hneg]
    · rw [if_neg hneg]
      have hlen : instances.length ≤ (n - 1).toNat := by omega
      rw [List.get?_eq_none.2 hlen]

/-- Witness for C9: with a one-element list, input "abc" exits, and
the unchecked numeric inputs "0" and "5" reach the out-of-bounds
access. -/
theorem selectInstance_behaviour_witness :
    selectInstance [⟨"i-1", "a", "a"⟩] "abc" = .exitClean "Non-numeric input. Exiting" ∧
    selectInstance [⟨"i-1", "a", "a"⟩] "0" = .selected none ∧
    selectInstance [⟨"i-1", "a", "a"⟩] "5" = .selected none := by
  have h := selectInstance_behaviour [⟨"i-1", "a", "a"⟩]
  exact ⟨h.2.1 "abc" (by decide) (by decide),
    h.2.2 "0" 0 (by decide) (by decide),
    h.2.2 "5" 5 (by decide) (by decide)⟩

/-! ### Claim theorems for the diagnostic report and checks -/

theorem summaryCounts_foldl (results : List DiagnosticResult) : ∀ acc : Nat × Nat × Nat,
    results.foldl summaryStep acc =
      (acc.1 + results.countP (fun r => r.status == "PASS"),
       acc.2.1 + results.countP (fun r => r.status == "FAIL"),
       acc.2.2 + results.countP (fun r => r.status == "WARN")) := by
  induction results with
  | nil =>
    intro acc
    obtain ⟨p, f, w⟩ := acc
    simp
  | cons r rest ih =>
    intro acc
    simp only [List.foldl_cons, List.countP_cons]
    rw [ih]
    obtain ⟨p, f, w⟩ := acc
    unfold summaryStep
    by_cases h1 : r.status = "PASS"
    · simp [h1, Prod.ext_iff]
      omega
    · by_cases h2 : r.status = "FAIL"
      · simp [h1, h2, Prod.ext_iff]
        omega
      · by_cases h3 : r.status = "WARN"
        · simp [h1, h2, h3, Prod.ext_iff]
          omega
        · simp [h1, h2, h3, Prod.ext_iff]

/-- C8: the summary counts printed by displayDiagnosticResults equal
the counts recomputed from the result list; they are derived by the
counting loop over the list, never stored elsewhere. -/
theorem summaryCounts_eq_recount (results : List DiagnosticResult) :
    summaryCounts results =
      (results.countP (fun r => r.status == "PASS"),
       results.countP (fun r => r.status == "FAIL"),
       results.countP (fun r => r.status == "WARN")) := by
  unfold summaryCounts
  rw [summaryCounts_foldl]
  simp

/-- C2, counterexample to the claim as stated: one egress rule with
protocol "6" (TCP), port range 80–80 and destination 0.0.0.0/0 makes
the check Pass — the code also treats protocol "6" as "all traffic" —
although no rule permits protocol-wildcard all traffic or HTTPS as
the claim requires (the second conjunct checks every rule against the
claim's own Pass condition). -/
theorem trafficRules_claim_counterexample :
    (checkSSMTrafficRules ["sg-1"]
        (.ok [⟨[⟨some "6", some 80, some 80, [⟨some "0.0.0.0/0"⟩]⟩]⟩])).status = "PASS" ∧
    ([(⟨[⟨some "6", some 80, some 80, [⟨some "0.0.0.0/0"⟩]⟩]⟩ : SecurityGroup)].all
      (fun sg => sg.ipPermissionsEgress.all (fun rule => !specSSMTrafficPermits rule))) = true := by
  decide

/-- C2 (amended): with at least one attached group and a successful
lookup, the check Passes iff some egress rule satisfies the code's
all-traffic test (protocol "-1" OR "6", to an open destination,
regardless of port range) or its HTTPS test; otherwise it Fails; and
whenever some rule satisfies the all-traffic test the reported message
is the "all traffic" variant, even if an HTTPS-only rule is also
present. -/
theorem trafficRules_spec (ids : List String) (sgs : List SecurityGroup) (hids : ids ≠ []) :
    ((checkSSMTrafficRules ids (.ok sgs)).status = "PASS" ↔
      ∃ sg ∈ sgs, ∃ rule ∈ sg.ipPermissionsEgress,
        ruleAllTraffic rule = true ∨ ruleHTTPS rule = true) ∧
    ((¬ ∃ sg ∈ sgs, ∃ rule ∈ sg.ipPermissionsEgress,
        ruleAllTraffic rule = true ∨ ruleHTTPS rule = true) →
      (checkSSMTrafficRules ids (.ok sgs)).status = "FAIL") ∧
    ((∃ sg ∈ sgs, ∃ rule ∈ sg.ipPermissionsEgress, ruleAllTraffic rule = true) →
      (checkSSMTrafficRules ids (.ok sgs)).message =
        "Security groups allow all traffic outbound (includes SSM requirements)") := by
  have hlen0 : ¬ (ids.length = 0) := fun h => hids (List.length_eq_zero.1 h)
  have hval : checkSSMTrafficRules ids (.ok sgs) =
      (if sgs.any (fun sg => sg.ipPermissionsEgress.any ruleAllTraffic) then
        ⟨"SSM Traffic Rules", "PASS",
          "Security groups allow all traffic outbound (includes SSM requirements)"⟩
      else if sgs.any (fun sg => sg.ipPermissionsEgress.any ruleHTTPS) then
        ⟨"SSM Traffic Rules", "PASS",
          "Security groups allow HTTPS outbound traffic (required for SSM)"⟩
      else
        ⟨"SSM Traffic Rules", "FAIL",
          "Security groups do not allow HTTPS outbound traffic (required for SSM)"⟩) := by
    unfold checkSSMTrafficRules
    rw [if_neg hlen0]
  have hAiff : (sgs.any (fun sg => sg.ipPermissionsEgress.any ruleAllTraffic) = true) ↔
      ∃ sg ∈ sgs, ∃ rule ∈ sg.ipPermissionsEgress, ruleAllTraffic rule = true := by
    simp [List.any_eq_true]
  have hHiff : (sgs.any (fun sg => sg.ipPermissionsEgress.any ruleHTTPS) = true) ↔
      ∃ sg ∈ sgs, ∃ rule ∈ sg.ipPermissionsEgress, ruleHTTPS rule = true := by
    simp [List.any_eq_true]
  by_cases hA : sgs.any (fun sg => sg.ipPermissionsEgress.any ruleAllTraffic) = true
  · rw [hval, if_pos hA]
    obtain ⟨sg, hsg, rule, hrule, hr⟩ := hAiff.1 hA
    refine ⟨⟨fun _ => ⟨sg, hsg, rule, hrule, Or.inl hr⟩, fun _ => rfl⟩, ?_, fun _ => rfl⟩
    intro hnot
    exact absurd ⟨sg, hsg, rule, hrule, Or.inl hr⟩ hnot
  · by_cases hH : sgs.any (fun sg => sg.ipPermissionsEgress.any ruleHTTPS) = true
    · rw [hval, if_neg hA, if_pos hH]
      obtain ⟨sg, hsg, rule, hrule, hr⟩ := hHiff.1 hH
      refine ⟨⟨fun _ => ⟨sg, hsg, rule, hrule, Or.inr hr⟩, fun _ => rfl⟩, ?_, ?_⟩
      · intro hnot
        exact absurd ⟨sg, hsg, rule, hrule, Or.inr hr⟩ hnot
      · intro hex
        exact absurd (hAiff.2 hex) hA
    · rw [hval, if_neg hA, if_neg hH]
      refine ⟨⟨fun h => absurd h (by decide), ?_⟩, fun _ => rfl, ?_⟩
      · rintro ⟨sg, hsg, rule, hrule, h | h⟩
        · exact absurd (hAiff.2 ⟨sg, hsg, rule, hrule, h⟩) hA
        · exact absurd (hHiff.2 ⟨sg, hsg, rule, hrule, h⟩) hH
      · intro hex
        exact absurd (hAiff.2 hex) hA

/-- Witness for C2: a protocol-wildcard rule to 0.0.0.0/0 next to an
HTTPS-only rule yields Pass with the "all traffic" message. -/
theorem trafficRules_spec_witness :
    (checkSSMTrafficRules ["sg-1"]
      (.ok [⟨[⟨some "-1", none, none, [⟨some "0.0.0.0/0"⟩]⟩,
              ⟨some "tcp", some 443, some 443, [⟨some "0.0.0.0/0"⟩]⟩]⟩])).status = "PASS" ∧
    (checkSSMTrafficRules ["sg-1"]
      (.ok [⟨[⟨some "-1", none, none, [⟨some "0.0.0.0/0"⟩]⟩,
              ⟨some "tcp", some 443, some 443, [⟨some "0.0.0.0/0"⟩]⟩]⟩])).message =
      "Security groups allow all traffic outbound (includes SSM requirements)" := by
  have h := trafficRules_spec ["sg-1"]
    [⟨[⟨some "-1", none, none, [⟨some "0.0.0.0/0"⟩]⟩,
       ⟨some "tcp", some 443, some 443, [⟨some "0.0.0.0/0"⟩]⟩]⟩] (by decide)
  refine ⟨h.1.2 ?_, h.2.2 ?_⟩
  · exact ⟨⟨[⟨some "-1", none, none, [⟨some "0.0.0.0/0"⟩]⟩,
        ⟨some "tcp", some 443, some 443, [⟨some "0.0.0.0/0"⟩]⟩]⟩, by simp,
      ⟨some "-1", none, none, [⟨some "0.0.0.0/0"⟩]⟩, by simp, Or.inl (by decide)⟩
  · exact ⟨⟨[⟨some "-1", none, none, [⟨some "0.0.0.0/0"⟩]⟩,
        ⟨some "tcp", some 443, some 443, [⟨some "0.0.0.0/0"⟩]⟩]⟩, by simp,
      ⟨some "-1", none, none, [⟨some "0.0.0.0/0"⟩]⟩, by simp, by decide⟩

theorem checkRoleSSMPermissions_ok (env : IamEnv) (roleName : String)
    (policies : List AttachedPolicy) (policyNames : List String)
    (h1 : env.listAttachedRolePolicies roleName = .ok policies)
    (h2 : env.listRolePolicies roleName = .ok policyNames) :
    checkRoleSSMPermissions env roleName =
      .ok ((policies.any (fun p =>
            match p.policyArn with
            | some arn => strContains arn "AmazonSSMManagedInstanceCore"
            | none => false)) ||
          (policyNames.any (fun policyName =>
            match env.getRolePolicy roleName policyName with
            | .error _ => false
            | .ok policy =>
              match policy.policyDocument with
              | some doc => strContains doc "ssm:"
              | none => false))) := by
  unfold checkRoleSSMPermissions
  rw [h1, h2]
  cases hm : policies.any (fun p =>
      match p.policyArn with
      | some arn => strContains arn "AmazonSSMManagedInstanceCore"
      | none => false) with
  | true => simp [hm]
  | false =>
    cases hi : policyNames.any (fun policyName =>
        match env.getRolePolicy roleName policyName with
        | .error _ => false
        | .ok policy =>
          match policy.policyDocument with
          | some doc => strContains doc "ssm:"
          | none => false) with
    | true => simp [hm, hi]
    | false => simp [hm, hi]

/-- C5: IdentityAttachment behaviour of checkIAMRole: Fail with no
instance profile; Warn when the profile is attached (with an
extractable role name) but the permission lookup errors; with
successful lookups, Pass exactly when an attached policy ARN contains
"AmazonSSMManagedInstanceCore" or a fetchable inline policy document
contains "ssm:", and Fail when the role lacks that capability. -/
theorem iamRole_spec (env : IamEnv) :
    (checkIAMRole env none).status = "FAIL" ∧
    (∀ arn e, extractRoleNameFromProfileArn arn ≠ "" →
      checkRoleSSMPermissions env (extractRoleNameFromProfileArn arn) = .error e →
      (checkIAMRole env (some arn)).status = "WARN") ∧
    (∀ arn policies policyNames,
      extractRoleNameFromProfileArn arn ≠ "" →
      env.listAttachedRolePolicies (extractRoleNameFromProfileArn arn) = .ok policies →
      env.listRolePolicies (extractRoleNameFromProfileArn arn) = .ok policyNames →
      (((checkIAMRole env (some arn)).status = "PASS") ↔
        ((∃ p ∈ policies, ∃ a, p.policyArn = some a ∧
            strContains a "AmazonSSMManagedInstanceCore" = true) ∨
         (∃ pn ∈ policyNames,
            ∃ pol, env.getRolePolicy (extractRoleNameFromProfileArn arn) pn = .ok pol ∧
              ∃ doc, pol.policyDocument = some doc ∧ strContains doc "ssm:" = true))) ∧
      ((¬ ((∃ p ∈ policies, ∃ a, p.policyArn = some a ∧
            strContains a "AmazonSSMManagedInstanceCore" = true) ∨
         (∃ pn ∈ policyNames,
            ∃ pol, env.getRolePolicy (extractRoleNameFromProfileArn arn) pn = .ok pol ∧
              ∃ doc, pol.policyDocument = some doc ∧ strContains doc "ssm:" = true))) →
        (checkIAMRole env (some arn)).status = "FAIL")) := by
  refine ⟨rfl, ?_, ?_⟩
  · intro arn e hrn herr
    simp only [checkIAMRole]
    rw [if_neg hrn, herr]
  · intro arn policies policyNames hrn h1 h2
    have hmB_iff : (policies.any (fun p =>
        match p.policyArn with
        | some arn => strContains arn "AmazonSSMManagedInstanceCore"
        | none => false) = true) ↔
        ∃ p ∈ policies, ∃ a, p.policyArn = some a ∧
          strContains a "AmazonSSMManagedInstanceCore" = true := by
      rw [List.any_eq_true]
      constructor
      · rintro ⟨p, hp, hmatch⟩
        cases ha : p.policyArn with
        | none => rw [ha] at hmatch; exact absurd hmatch (by simp)
        | some a =>
          rw [ha] at hmatch
          exact ⟨p, hp, a, ha, hmatch⟩
      · rintro ⟨p, hp, a, ha, hc⟩
        refine ⟨p, hp, ?_⟩
        rw [ha]
        exact hc
    have hiB_iff : (policyNames.any (fun policyName =>
        match env.getRolePolicy (extractRoleNameFromProfileArn arn) policyName with
        | .error _ => false
        | .ok policy =>
          match policy.policyDocument with
          | some doc => strContains doc "ssm:"
          | none => false) = true) ↔
        ∃ pn ∈ policyNames,
          ∃ pol, env.getRolePolicy (extractRoleNameFromProfileArn arn) pn = .ok pol ∧
            ∃ doc, pol.policyDocument = some doc ∧ strContains doc "ssm:" = true := by
      rw [List.any_eq_true]
      constructor
      · rintro ⟨pn, hpn, hmatch⟩
        cases hg : env.getRolePolicy (extractRoleNameFromProfileArn arn) pn with
        | error _ => rw [hg] at hmatch; exact absurd hmatch (by simp)
        | ok pol =>
          rw [hg] at hmatch
          have hmatch' : (match pol.policyDocument with
              | some doc => strContains doc "ssm:"
              | none => false) = true := hmatch
          cases hd : pol.policyDocument with
          | none => rw [hd] at hmatch'; exact absurd hmatch' (by simp)
          | some doc =>
            rw [hd] at hmatch'
            exact ⟨pn, hpn, pol, hg, doc, hd, hmatch'⟩
      · rintro ⟨pn, hpn, pol, hg, doc, hd, hc⟩
        refine ⟨pn, hpn, ?_⟩
        rw [hg]
        show (match pol.policyDocument with
          | some doc => strContains doc "ssm:"
          | none => false) = true
        rw [hd]
        exact hc
    have hperm := checkRoleSSMPermissions_ok env (extractRoleNameFromProfileArn arn)
      policies policyNames h1 h2
    simp only [checkIAMRole]
    rw [if_neg hrn, hperm]
    cases hmb : policies.any (fun p =>
        match p.policyArn with
        | some arn => strContains arn "AmazonSSMManagedInstanceCore"
        | none => false) with
    | true =>
      refine ⟨⟨fun _ => Or.inl (hmB_iff.1 hmb), fun _ => rfl⟩, ?_⟩
      intro hnot
      exact absurd (Or.inl (hmB_iff.1 hmb)) hnot
    | false =>
      cases hib : policyNames.any (fun policyName =>
          match env.getRolePolicy (extractRoleNameFromProfileArn arn) policyName with
          | .error _ => false
          | .ok policy =>
            match policy.policyDocument with
            | some doc => strContains doc "ssm:"
            | none => false) with
      | true =>
        refine ⟨⟨fun _ => Or.inr (hiB_iff.1 hib), fun _ => rfl⟩, ?_⟩
        intro hnot
        exact absurd (Or.inr (hiB_iff.1 hib)) hnot
      | false =>
        refine ⟨⟨fun h => absurd (show ("FAIL" : String) = "PASS" from h) (by decide), ?_⟩,
          fun _ => rfl⟩
        rintro (hm | hi)
        · rw [hmB_iff.2 hm] at hmb
          exact Bool.noConfusion hmb
        · rw [hiB_iff.2 hi] at hib
          exact Bool.noConfusion hib

/-- Witness for C5: a role whose attached policy ARN names the managed
SSM policy yields Pass. -/
theorem iamRole_spec_witness :
    (checkIAMRole
      ⟨fun _ => .ok [⟨some "arn:aws:iam::aws:policy/AmazonSSMManagedInstanceCore"⟩],
       fun _ => .ok [], fun _ _ => .error "nope"⟩
      (some "arn:aws:iam::123456789012:instance-profile/app-role")).status = "PASS" := by
  have h := iamRole_spec
    ⟨fun _ => .ok [⟨some "arn:aws:iam::aws:policy/AmazonSSMManagedInstanceCore"⟩],
     fun _ => .ok [], fun _ _ => .error "nope"⟩
  exact (h.2.2 "arn:aws:iam::123456789012:instance-profile/app-role"
      [⟨some "arn:aws:iam::aws:policy/AmazonSSMManagedInstanceCore"⟩] []
      (by decide) rfl rfl).1.2
    (Or.inl ⟨⟨some "arn:aws:iam::aws:policy/AmazonSSMManagedInstanceCore"⟩, by simp,
      "arn:aws:iam::aws:policy/AmazonSSMManagedInstanceCore", rfl, by decide⟩)

/-- C6: NetworkEgressRoute behaviour of checkInternetConnectivity:
Fail with no subnet id; Warn — never Fail — when the subnet or
route-table lookup errors; with successful lookups, Pass iff some
route table associated with the subnet has a 0.0.0.0/0 route to an
"igw-"-prefixed gateway, else Fail. -/
theorem internetConnectivity_spec (env : NetEnv) :
    (checkInternetConnectivity env none).status = "FAIL" ∧
    (∀ sid e, env.describeSubnets sid = .error e →
      (checkInternetConnectivity env (some sid)).status = "WARN") ∧
    (∀ sid subnet rest e, env.describeSubnets sid = .ok (subnet :: rest) →
      env.describeRouteTables subnet.vpcId = .error e →
      (checkInternetConnectivity env (some sid)).status = "WARN") ∧
    (∀ sid subnet rest rts, env.describeSubnets sid = .ok (subnet :: rest) →
      env.describeRouteTables subnet.vpcId = .ok rts →
      (((checkInternetConnectivity env (some sid)).status = "PASS") ↔
        ∃ rt ∈ rts, routeTableAssociatedWithSubnet sid rt = true ∧
          ∃ route ∈ rt.routes, routeIsInternetGateway route = true) ∧
      ((¬ ∃ rt ∈ rts, routeTableAssociatedWithSubnet sid rt = true ∧
          ∃ route ∈ rt.routes, routeIsInternetGateway route = true) →
        (checkInternetConnectivity env (some sid)).status = "FAIL")) := by
  refine ⟨rfl, ?_, ?_, ?_⟩
  · intro sid e herr
    simp only [checkInternetConnectivity]
    rw [herr]
  · intro sid subnet rest e hsub herr
    have hval : checkInternetConnectivity env (some sid) =
        (match env.describeRouteTables subnet.vpcId with
         | .error e =>
           ⟨"Internet Connectivity", "WARN", "Could not check route tables: " ++ e⟩
         | .ok routeTables =>
           if routeTables.any (fun rt =>
               routeTableAssociatedWithSubnet sid rt && rt.routes.any routeIsInternetGateway) then
             ⟨"Internet Connectivity", "PASS", "Subnet has internet gateway route (0.0.0.0/0)"⟩
           else
             ⟨"Internet Connectivity", "FAIL",
               "Subnet lacks internet gateway route (0.0.0.0/0) - instance may not have internet access"⟩) := by
      simp only [checkInternetConnectivity]
      rw [hsub]
    rw [hval, herr]
  · intro sid subnet rest rts hsub hrts
    have hiff : (rts.any (fun rt =>
        routeTableAssociatedWithSubnet sid rt && rt.routes.any routeIsInternetGateway) = true) ↔
        ∃ rt ∈ rts, routeTableAssociatedWithSubnet sid rt = true ∧
          ∃ route ∈ rt.routes, routeIsInternetGateway route = true := by
      simp [List.any_eq_true, Bool.and_eq_true]
    have hval : checkInternetConnectivity env (some sid) =
        (match env.describeRouteTables subnet.vpcId with
         | .error e =>
           ⟨"Internet Connectivity", "WARN", "Could not check route tables: " ++ e⟩
         | .ok routeTables =>
           if routeTables.any (fun rt =>
               routeTableAssociatedWithSubnet sid rt && rt.routes.any routeIsInternetGateway) then
             ⟨"Internet Connectivity", "PASS", "Subnet has internet gateway route (0.0.0.0/0)"⟩
           else
             ⟨"Internet Connectivity", "FAIL",
               "Subnet lacks internet gateway route (0.0.0.0/0) - instance may not have internet access"⟩) := by
      simp only [checkInternetConnectivity]
      rw [hsub]
    have hval2 : checkInternetConnectivity env (some sid) =
        (if rts.any (fun rt =>
            routeTableAssociatedWithSubnet sid rt && rt.routes.any routeIsInternetGateway) then
          ⟨"Internet Connectivity", "PASS", "Subnet has internet gateway route (0.0.0.0/0)"⟩
        else
          ⟨"Internet Connectivity", "FAIL",
            "Subnet lacks internet gateway route (0.0.0.0/0) - instance may not have internet access"⟩) := by
      rw [hval, hrts]
    rw [hval2]
    by_cases hA : rts.any (fun rt =>
        routeTableAssociatedWithSubnet sid rt && rt.routes.any routeIsInternetGateway) = true
    · rw [if_pos hA]
      refine ⟨⟨fun _ => hiff.1 hA, fun _ => rfl⟩, ?_⟩
      intro hnot
      exact absurd (hiff.1 hA) hnot
    · rw [if_neg hA]
      exact ⟨⟨fun h => absurd h (by decide), fun hex => absurd (hiff.2 hex) hA⟩, fun _ => rfl⟩

/-- Witness for C6: a route table associated with the subnet holding a
0.0.0.0/0 route to igw-123 yields Pass; the same environment on a
failing subnet lookup yields Warn. -/
theorem internetConnectivity_spec_witness :
    (checkInternetConnectivity
      ⟨fun sid => if sid = "subnet-1" then .ok [⟨"vpc-1"⟩] else .error "boom",
       fun _ => .ok [⟨[⟨some "subnet-1"⟩], [⟨some "0.0.0.0/0", some "igw-123"⟩]⟩]⟩
      (some "subnet-1")).status = "PASS" ∧
    (checkInternetConnectivity
      ⟨fun sid => if sid = "subnet-1" then .ok [⟨"vpc-1"⟩] else .error "boom",
       fun _ => .ok [⟨[⟨some "subnet-1"⟩], [⟨some "0.0.0.0/0", some "igw-123"⟩]⟩]⟩
      (some "subnet-2")).status = "WARN" := by
  have h := internetConnectivity_spec
    ⟨fun sid => if sid = "subnet-1" then .ok [⟨"vpc-1"⟩] else .error "boom",
     fun _ => .ok [⟨[⟨some "subnet-1"⟩], [⟨some "0.0.0.0/0", some "igw-123"⟩]⟩]⟩
  refine ⟨(h.2.2.2 "subnet-1" ⟨"vpc-1"⟩ [] [⟨[⟨some "subnet-1"⟩],
      [⟨some "0.0.0.0/0", some "igw-123"⟩]⟩] rfl rfl).1.2 ?_,
    h.2.1 "subnet-2" "boom" rfl⟩
  exact ⟨⟨[⟨some "subnet-1"⟩], [⟨some "0.0.0.0/0", some "igw-123"⟩]⟩, by simp,
    by decide, ⟨some "0.0.0.0/0", some "igw-123"⟩, by simp, by decide⟩
